import Mathlib

/-!
Shallow embedding of `retriever/lib/templates.py`, class `BasicTextTemplate`
(method `download` and its helpers `process_archived_data`, `process_tables`,
`process_spatial_insert`, `process_tabular_insert`).

Modelling conventions:
* A Python object attribute that may be absent is an `Option` field
  (`none` = the attribute is absent, i.e. `hasattr` is false).
* Python string truthiness is `≠ ""`.
* The engine is external: each call the pipeline makes on it is recorded as an
  `EngineCall` value, in order; `format_filename` is an opaque string function.
* Python exceptions raised by the pipeline's own attribute accesses are
  modelled with `Except PyError`; on an exception the whole run propagates it.
* The per-table loop variable `url` survives across iterations (it is a local
  of `download`), so it is threaded through the loop as an `Option String`;
  a use of the still-unbound variable is an `UnboundLocalError`.
-/

namespace Retriever

/-- Python exception kinds the embedded code can raise.  `configurationError`
belongs to the specification's error taxonomy; the embedded code never
produces it (it has no such exception class), which lets theorems compare
the error actually raised with the one the specification names. -/
inductive PyError where
  | attributeError
  | unboundLocalError
  | configurationError
  deriving DecidableEq, Repr

/-- One call made on the bound engine, with its arguments.  `createDb` is the
call issued by `Script.download` before the table loop.  `printNoSpatial` is
the capability-mismatch diagnostic printed in `BasicTextTemplate.download`. -/
inductive EngineCall where
  | createDb
  | downloadArchive (url : String) (files : Option (List String))
      (archiveType : String) (keepInDir : Bool) (archiveName : Option String)
  | downloadFile (url : String) (filename : String)
  | excelToCsv (src : String) (dst : String) (sheets : Nat × String) (encoding : String)
  | geojson2csv (src : String) (dst : String)
  | autoCreateTable (url : String) (filename : Option String)
  | insertDataFromFile (path : String)
  | insertDataFromUrl (url : String)
  | insertRaster (path : String)
  | insertVector (path : String)
  | disconnectFiles
  | printNoSpatial (engineName : String)
  deriving DecidableEq, Repr

/-- A table descriptor: the optional attributes of one `table_obj` that
`BasicTextTemplate` inspects.  `none` means the attribute is absent. -/
structure Table where
  url : Option String := none
  format : Option String := none
  dataset_type : Option String := none
  archived : Option String := none
  xls_sheets : Option (Nat × String) := none
  geojson_data : Option String := none
  path : Option String := none
  deriving DecidableEq, Repr

/-- The dataset descriptor (`self`, a `BasicTextTemplate` instance): the
attributes `download` and its helpers read from `self`, plus the table list
in declaration order. -/
structure Script where
  url : Option String := none
  archived : Option String := none
  extract_all : Option Bool := none
  keep_in_dir : Option Bool := none
  archive_name : Option String := none
  encoding : String := "utf-8"
  tables : List Table := []
  deriving DecidableEq, Repr

/-- The bound engine's surface the pipeline reads: its name (used in the
diagnostic), its optional `spatial_support` attribute (`none` = absent), and
its `format_filename` path normalizer (opaque here). -/
structure Engine where
  name : String := ""
  spatial_support : Option Bool := none
  format_filename : String → String := id

/-- Evaluating the loop-local variable `url`: raises `UnboundLocalError` when
no iteration has assigned it yet. -/
def useUrl : Option String → Except PyError String
  | some u => .ok u
  | none => .error .unboundLocalError

/-- The `elif self.url:` arm of the URL resolution: reading `self.url` raises
`AttributeError` when the attribute is absent; a falsy (empty) value leaves
the previous binding of the loop variable in place. -/
def scriptFallback (s : Script) (prev : Option String) : Except PyError (Option String) :=
  match s.url with
  | none => .error .attributeError
  | some v => .ok (if v = "" then prev else some v)

/-- Lines 121-124: `if hasattr(table_obj, "url") and table_obj.url: url = table_obj.url
elif self.url: url = self.url`.  Returns the (possibly unchanged) binding of
the loop variable `url`. -/
def resolveUrlBind (s : Script) (t : Table) (prev : Option String) :
    Except PyError (Option String) :=
  match t.url with
  | some u => if u = "" then scriptFallback s prev else .ok (some u)
  | none => scriptFallback s prev

/-- `process_archived_data`: the archive type, table attribute first, else the
script's, else the `"zip"` default. -/
def archiveType (s : Script) (t : Table) : String :=
  match t.archived with
  | some a => a
  | none =>
    match s.archived with
    | some a => a
    | none => "zip"

/-- `process_archived_data`: the `file_names` argument.  When `self` has an
`extract_all` attribute the initial `None` is kept (whatever its value);
otherwise `[table_obj.path]` is built, raising `AttributeError` when the table
has no `path`.  A present `xls_sheets` then overrides the list with the single
spreadsheet source filename. -/
def archiveFilesBase (s : Script) (t : Table) : Except PyError (Option (List String)) :=
  if s.extract_all.isSome then .ok none
  else
    match t.path with
    | some p => .ok (some [p])
    | none => .error .attributeError

/-- `process_archived_data`: the final `file_names` argument, after the
`xls_sheets` override of `archiveFilesBase`. -/
def archiveFiles (s : Script) (t : Table) : Except PyError (Option (List String)) :=
  match t.xls_sheets with
  | some xs =>
    match archiveFilesBase s t with
    | .ok _ => .ok (some [xs.2])
    | .error e => .error e
  | none => archiveFilesBase s t

/-- `process_archived_data(table_obj, url)`: the single
`download_files_from_archive` engine call it issues. -/
def archiveCall (s : Script) (t : Table) (url : String) : Except PyError EngineCall :=
  match archiveFiles s t with
  | .error e => .error e
  | .ok files =>
    .ok (.downloadArchive url files (archiveType s t) (s.keep_in_dir.getD false) s.archive_name)

/-- Lines 127-128: the archive stage runs iff `self` or the table has an
`archived` attribute; the loop variable `url` is evaluated at the call site. -/
def archiveStage (s : Script) (t : Table) (urlB : Option String) :
    Except PyError (List EngineCall) :=
  if s.archived.isSome || t.archived.isSome then
    match useUrl urlB with
    | .error e => .error e
    | .ok u =>
      match archiveCall s t u with
      | .error e => .error e
      | .ok c => .ok [c]
  else .ok []

/-- `process_tables`, spreadsheet part: when `xls_sheets` is present, download
the workbook and convert the sheet; computing the destination path reads
`table_obj.path` (an `AttributeError` when absent). -/
def xlsConvCalls (s : Script) (e : Engine) (t : Table) (url : String) :
    Except PyError (List EngineCall) :=
  match t.xls_sheets with
  | none => .ok []
  | some xs =>
    match t.path with
    | none => .error .attributeError
    | some p =>
      .ok [.downloadFile url xs.2,
           .excelToCsv (e.format_filename xs.2) (e.format_filename p) xs s.encoding]

/-- `process_tables`, geojson part: when `geojson_data` is present, download
the geo source and convert it; the destination path again reads
`table_obj.path`. -/
def geoConvCalls (e : Engine) (t : Table) (url : String) :
    Except PyError (List EngineCall) :=
  match t.geojson_data with
  | none => .ok []
  | some g =>
    match t.path with
    | none => .error .attributeError
    | some p =>
      .ok [.downloadFile url g, .geojson2csv (e.format_filename g) (e.format_filename p)]

/-- `process_tables`, final part: `auto_create_table`, with the `filename`
keyword passed only when the table has a `path`. -/
def createCall (t : Table) (url : String) : EngineCall :=
  match t.path with
  | some p => .autoCreateTable url (some p)
  | none => .autoCreateTable url none

/-- `process_tables(table_obj, url)` as the sequence of engine calls it
issues: both conversion blocks are independent `if` statements, then the
creation call. -/
def processTablesCalls (s : Script) (e : Engine) (t : Table) (url : String) :
    Except PyError (List EngineCall) :=
  match xlsConvCalls s e t url with
  | .error er => .error er
  | .ok a =>
    match geoConvCalls e t url with
    | .error er => .error er
    | .ok b => .ok (a ++ b ++ [createCall t url])

/-- Lines 131-139, the table-creation branch.  The boolean result is `true`
when the `return` statement is reached (the capability mismatch): the whole
`download` call returns.  When the engine has no `spatial_support` attribute
at all, nothing happens and the flow falls through. -/
def creationStage (s : Script) (e : Engine) (t : Table) (urlB : Option String) :
    Except PyError (List EngineCall × Bool) :=
  if t.format = some "tabular" then
    match useUrl urlB with
    | .error er => .error er
    | .ok u =>
      match processTablesCalls s e t u with
      | .error er => .error er
      | .ok l => .ok (l, false)
  else
    match e.spatial_support with
    | some true =>
      match useUrl urlB with
      | .error er => .error er
      | .ok u =>
        match processTablesCalls s e t u with
        | .error er => .error er
        | .ok l => .ok (l, false)
    | some false => .ok ([.printNoSpatial e.name], true)
    | none => .ok ([], false)

/-- `process_spatial_insert(table_obj)`: raster or vector insertion on the
table's (formatted) path; reading `table_obj.path` can raise. -/
def spatialInsertCalls (e : Engine) (t : Table) : Except PyError (List EngineCall) :=
  match t.dataset_type with
  | some dt =>
    if dt = "RasterDataset" then
      match t.path with
      | some p => .ok [.insertRaster (e.format_filename p)]
      | none => .error .attributeError
    else if dt = "VectorDataset" then
      match t.path with
      | some p => .ok [.insertVector (e.format_filename p)]
      | none => .error .attributeError
    else .ok []
  | none => .ok []

/-- `process_tabular_insert(table_obj, url)`: file-based when `self` (the
script, not the table) has an `archived` attribute or the table has a `path`;
otherwise streamed from the URL. -/
def tabularInsertCalls (s : Script) (e : Engine) (t : Table) (url : String) :
    Except PyError (List EngineCall) :=
  if s.archived.isSome || t.path.isSome then
    match t.path with
    | some p => .ok [.insertDataFromFile (e.format_filename p)]
    | none => .error .attributeError
  else .ok [.insertDataFromUrl url]

/-- Lines 141-148, the insertion branch.  The boolean result is `true` when
the `continue` statement is reached (spatial insertion), in which case the
per-iteration `disconnect_files` call is skipped.  A table without a
`dataset_type` attribute gets no insertion call at all. -/
def insertionStage (s : Script) (e : Engine) (t : Table) (urlB : Option String) :
    Except PyError (List EngineCall × Bool) :=
  match t.dataset_type with
  | some dt =>
    if dt = "RasterDataset" ∨ dt = "VectorDataset" then
      match spatialInsertCalls e t with
      | .error er => .error er
      | .ok l => .ok (l, true)
    else
      match useUrl urlB with
      | .error er => .error er
      | .ok u =>
        match tabularInsertCalls s e t u with
        | .error er => .error er
        | .ok l => .ok (l, false)
  | none => .ok ([], false)

/-- How one iteration of the table loop ends: normally (through
`disconnect_files`), via the spatial `continue` (no disconnect), or via the
capability-mismatch `return` (the whole run stops). -/
inductive Outcome where
  | normal
  | spatialContinue
  | abortRun
  deriving DecidableEq, Repr

/-- One iteration of the `for _, table_obj in self.tables.items()` loop:
resolve the `url` binding, run the archive stage, the creation stage, the
insertion stage, and the trailing `disconnect_files` unless a `continue` or
`return` was reached.  Returns the engine calls of this iteration, the new
binding of the loop variable `url`, and how the iteration ended. -/
def processTable (s : Script) (e : Engine) (t : Table) (prev : Option String) :
    Except PyError (List EngineCall × Option String × Outcome) :=
  match resolveUrlBind s t prev with
  | .error er => .error er
  | .ok urlB =>
    match archiveStage s t urlB with
    | .error er => .error er
    | .ok a =>
      match creationStage s e t urlB with
      | .error er => .error er
      | .ok (c, true) => .ok (a ++ c, urlB, .abortRun)
      | .ok (c, false) =>
        match insertionStage s e t urlB with
        | .error er => .error er
        | .ok (i, true) => .ok (a ++ c ++ i, urlB, .spatialContinue)
        | .ok (i, false) => .ok (a ++ c ++ i ++ [.disconnectFiles], urlB, .normal)

/-- The table loop of `BasicTextTemplate.download`: iterates in declaration
order, threading the `url` binding; an `abortRun` outcome (the `return`)
stops the loop, discarding all remaining tables. -/
def downloadLoop (s : Script) (e : Engine) : List Table → Option String →
    Except PyError (List EngineCall)
  | [], _ => .ok []
  | t :: ts, prev =>
    match processTable s e t prev with
    | .error er => .error er
    | .ok (calls, _, .abortRun) => .ok calls
    | .ok (calls, urlB, _) =>
      match downloadLoop s e ts urlB with
      | .error er => .error er
      | .ok rest => .ok (calls ++ rest)

/-- `BasicTextTemplate.download`: `Script.download` issues `create_db`, then
the table loop runs.  The result is the full ordered engine-call trace of the
run (or the exception that escaped it). -/
def download (s : Script) (e : Engine) : Except PyError (List EngineCall) :=
  match downloadLoop s e s.tables none with
  | .error er => .error er
  | .ok calls => .ok (EngineCall.createDb :: calls)

/-- Is this call one of the four insertion operations? -/
def EngineCall.isInsert : EngineCall → Bool
  | .insertDataFromFile _ => true
  | .insertDataFromUrl _ => true
  | .insertRaster _ => true
  | .insertVector _ => true
  | _ => false

/-- Is this call a tabular insertion (from file or from URL)? -/
def EngineCall.isTabularInsert : EngineCall → Bool
  | .insertDataFromFile _ => true
  | .insertDataFromUrl _ => true
  | _ => false

/-- Is this call an archive download/extraction? -/
def EngineCall.isArchiveCall : EngineCall → Bool
  | .downloadArchive _ _ _ _ _ => true
  | _ => false

/-- Is this call the table-creation operation? -/
def EngineCall.isCreateTable : EngineCall → Bool
  | .autoCreateTable _ _ => true
  | _ => false

/-- Is this call the capability-mismatch diagnostic? -/
def EngineCall.isDiag : EngineCall → Bool
  | .printNoSpatial _ => true
  | _ => false

/-- Is this call the geojson conversion? -/
def EngineCall.isGeoConv : EngineCall → Bool
  | .geojson2csv _ _ => true
  | _ => false

/-- Is this call the spreadsheet conversion? -/
def EngineCall.isXlsConv : EngineCall → Bool
  | .excelToCsv _ _ _ _ => true
  | _ => false

/-- Is this call the per-table file-handle cleanup? -/
def EngineCall.isDisconnect : EngineCall → Bool
  | .disconnectFiles => true
  | _ => false

/-! ### A step relation for the table loop

`DownloadRel s e ts prev r` relates a remaining table list and a current
binding of the loop variable `url` to a possible result of the loop: the
constructors mirror the four ways an iteration can end (exception, the
capability-mismatch `return`, a completed iteration followed by the rest of
the loop succeeding, or failing).  The relation is what an observer of the
engine can derive about a run; functionality of the relation is the
determinism property. -/
inductive DownloadRel (s : Script) (e : Engine) :
    List Table → Option String → Except PyError (List EngineCall) → Prop where
  | nil (prev : Option String) : DownloadRel s e [] prev (.ok [])
  | err (t : Table) (ts : List Table) (prev : Option String) (er : PyError)
      (hp : processTable s e t prev = .error er) :
      DownloadRel s e (t :: ts) prev (.error er)
  | abort (t : Table) (ts : List Table) (prev : Option String)
      (calls : List EngineCall) (urlB : Option String)
      (hp : processTable s e t prev = .ok (calls, urlB, .abortRun)) :
      DownloadRel s e (t :: ts) prev (.ok calls)
  | stepOk (t : Table) (ts : List Table) (prev : Option String)
      (calls : List EngineCall) (urlB : Option String) (out : Outcome)
      (rest : List EngineCall)
      (hp : processTable s e t prev = .ok (calls, urlB, out))
      (hno : out ≠ .abortRun)
      (hr : DownloadRel s e ts urlB (.ok rest)) :
      DownloadRel s e (t :: ts) prev (.ok (calls ++ rest))
  | stepErr (t : Table) (ts : List Table) (prev : Option String)
      (calls : List EngineCall) (urlB : Option String) (out : Outcome) (er : PyError)
      (hp : processTable s e t prev = .ok (calls, urlB, out))
      (hno : out ≠ .abortRun)
      (hr : DownloadRel s e ts urlB (.error er)) :
      DownloadRel s e (t :: ts) prev (.error er)

/-- Is this call specifically an insert-from-file? -/
def EngineCall.isInsertFromFile : EngineCall → Bool
  | .insertDataFromFile _ => true
  | _ => false

/-! ### Concrete descriptors used to exercise the pipeline -/

/-- Fixture: an engine that reports `spatial_support = False`. -/
def sqliteNoSpatial : Engine := { name := "sqlite", spatial_support := some false }

/-- Fixture: an engine with no `spatial_support` attribute at all. -/
def plainEngine : Engine := { name := "sqlite" }

/-- Fixture: an engine that reports `spatial_support = True`. -/
def spatialEngine : Engine := { name := "postgis", spatial_support := some true }

/-- Fixture: a sibling table that, processed on its own, creates, inserts and
disconnects. -/
def siblingTable : Table := { format := some "tabular", dataset_type := some "T" }

/-- Fixture: a dataset whose first table triggers the capability mismatch and
whose second is an ordinary tabular table. -/
def mismatchScript : Script := { url := some "http://u", tables := [{}, siblingTable] }

/-- Fixture: a dataset with one tabular-format table carrying no
`dataset_type`. -/
def noDatasetTypeScript : Script :=
  { url := some "http://u", tables := [{ format := some "tabular" }] }

/-- Fixture: a table with both conversion markers and a path. -/
def bothConvTable : Table :=
  { format := some "tabular", xls_sheets := some (0, "book.xlsx"),
    geojson_data := some "g.json", path := some "out.csv" }

/-- Fixture: the dataset holding `bothConvTable`. -/
def bothConvScript : Script := { url := some "http://u", tables := [bothConvTable] }

/-- Fixture: a dataset with no `url` attribute and one attribute-less table. -/
def noUrlScript : Script := { tables := [{}] }

/-- Fixture: a vector table (spec scenario C). -/
def vectorTable : Table := { dataset_type := some "VectorDataset", path := some "shape.shp" }

/-- Fixture: the dataset holding `vectorTable`. -/
def vectorScript : Script := { url := some "http://u", tables := [vectorTable] }

/-- Fixture: a table whose own `archived` attribute is set but that has no
`path`. -/
def tableArchived : Table := { dataset_type := some "TabularDataset", archived := some "zip" }

/-- Fixture: a dataset with `extract_all` holding `tableArchived`; the dataset
itself has no `archived` attribute. -/
def tableArchivedScript : Script :=
  { url := some "http://u", extract_all := some true, tables := [tableArchived] }

/-- Fixture: a raster table with tabular format and a path. -/
def rasterTable : Table :=
  { dataset_type := some "RasterDataset", format := some "tabular", path := some "r.tif" }

/-- Fixture: the dataset holding `rasterTable`. -/
def rasterScript : Script := { url := some "http://u", tables := [rasterTable] }

/-- Fixture: an archived spreadsheet table with its own `archived` type. -/
def xlsArchTable : Table :=
  { format := some "tabular", archived := some "tar",
    xls_sheets := some (1, "wb.xlsx"), path := some "out.csv" }

/-- Fixture: a dataset declaring its own default `archived` type, holding
`xlsArchTable`. -/
def xlsArchScript : Script :=
  { url := some "http://u", archived := some "zip", tables := [xlsArchTable] }

/-- Fixture: a table with a non-spatial `dataset_type`. -/
def plainTypedTable : Table := { dataset_type := some "X" }

/-- Fixture: the dataset holding `plainTypedTable`. -/
def plainTypedScript : Script := { url := some "http://u", tables := [plainTypedTable] }

/-- Fixture: a table with its own `url`. -/
def ownUrlTable : Table := { url := some "http://t" }

/-- Fixture: a dataset with a default URL only. -/
def defaultUrlScript : Script := { url := some "http://d" }

/-! ### Shape and inversion lemmas for the stage functions -/

/-- A successful archive stage either did nothing (no `archived` attribute on
either object) or issued exactly the one `download_files_from_archive` call,
with the derived archive type, file list, flags and name. -/
theorem archiveStage_ok_cases (s : Script) (t : Table) (urlB : Option String)
    (l : List EngineCall) (h : archiveStage s t urlB = .ok l) :
    (t.archived = none ∧ s.archived = none ∧ l = [])
  ∨ ((t.archived.isSome ∨ s.archived.isSome) ∧
      ∃ u files, useUrl urlB = .ok u ∧ archiveFiles s t = .ok files ∧
        l = [EngineCall.downloadArchive u files (archiveType s t)
              (s.keep_in_dir.getD false) s.archive_name]) := by
  unfold archiveStage at h
  split at h
  · rename_i hc
    right
    refine ⟨?_, ?_⟩
    · rcases Bool.or_eq_true_iff.mp hc with h' | h'
      · exact Or.inr h'
      · exact Or.inl h'
    · split at h
      · exact absurd h (by simp)
      · rename_i u hu
        split at h
        · exact absurd h (by simp)
        · rename_i c hc'
          unfold archiveCall at hc'
          split at hc'
          · exact absurd hc' (by simp)
          · rename_i files hf
            refine ⟨u, files, hu, hf, ?_⟩
            simp only [Except.ok.injEq] at h hc'
            rw [← h, ← hc']
  · rename_i hc
    left
    simp only [Bool.or_eq_true, not_or, Bool.not_eq_true] at hc
    refine ⟨?_, ?_, ?_⟩
    · exact Option.not_isSome_iff_eq_none.mp (by simp [hc.2])
    · exact Option.not_isSome_iff_eq_none.mp (by simp [hc.1])
    · simpa using h.symm

/-- A successful spreadsheet-conversion block is empty (no `xls_sheets`) or
the download-then-convert pair. -/
theorem xlsConvCalls_shape (s : Script) (e : Engine) (t : Table) (url : String)
    (l : List EngineCall) (h : xlsConvCalls s e t url = .ok l) :
    (t.xls_sheets = none ∧ l = [])
  ∨ (∃ xs p, t.xls_sheets = some xs ∧ t.path = some p ∧
      l = [EngineCall.downloadFile url xs.2,
           EngineCall.excelToCsv (e.format_filename xs.2) (e.format_filename p)
             xs s.encoding]) := by
  unfold xlsConvCalls at h
  split at h
  · rename_i hx
    exact Or.inl ⟨hx, by simpa using h.symm⟩
  · rename_i xs hx
    split at h
    · exact absurd h (by simp)
    · rename_i p hp
      exact Or.inr ⟨xs, p, hx, hp, by simpa using h.symm⟩

/-- A successful geojson-conversion block is empty (no `geojson_data`) or the
download-then-convert pair. -/
theorem geoConvCalls_shape (e : Engine) (t : Table) (url : String)
    (l : List EngineCall) (h : geoConvCalls e t url = .ok l) :
    (t.geojson_data = none ∧ l = [])
  ∨ (∃ g p, t.geojson_data = some g ∧ t.path = some p ∧
      l = [EngineCall.downloadFile url g,
           EngineCall.geojson2csv (e.format_filename g) (e.format_filename p)]) := by
  unfold geoConvCalls at h
  split at h
  · rename_i hg
    exact Or.inl ⟨hg, by simpa using h.symm⟩
  · rename_i g hg
    split at h
    · exact absurd h (by simp)
    · rename_i p hp
      exact Or.inr ⟨g, p, hg, hp, by simpa using h.symm⟩

/-- A successful `process_tables` pass is the spreadsheet block, then the
geojson block, then the creation call. -/
theorem processTablesCalls_shape (s : Script) (e : Engine) (t : Table) (url : String)
    (l : List EngineCall) (h : processTablesCalls s e t url = .ok l) :
    ∃ a b, xlsConvCalls s e t url = .ok a ∧ geoConvCalls e t url = .ok b ∧
      l = a ++ b ++ [createCall t url] := by
  unfold processTablesCalls at h
  split at h
  · exact absurd h (by simp)
  · rename_i a ha
    split at h
    · exact absurd h (by simp)
    · rename_i b hb
      exact ⟨a, b, ha, hb, by simpa using h.symm⟩

/-- A successful creation stage either aborted with exactly the diagnostic
(engine reports `spatial_support == False` and the format is not tabular), or
did not abort and is empty or a successful `process_tables` pass. -/
theorem creationStage_shape (s : Script) (e : Engine) (t : Table) (urlB : Option String)
    (l : List EngineCall) (ab : Bool) (h : creationStage s e t urlB = .ok (l, ab)) :
    (ab = true ∧ l = [EngineCall.printNoSpatial e.name] ∧
      e.spatial_support = some false ∧ t.format ≠ some "tabular")
  ∨ (ab = false ∧ (l = [] ∨ ∃ u, useUrl urlB = .ok u ∧ processTablesCalls s e t u = .ok l)) := by
  unfold creationStage at h
  split at h
  · rename_i hf
    split at h
    · exact absurd h (by simp)
    · rename_i u hu
      split at h
      · exact absurd h (by simp)
      · rename_i l' hl
        simp only [Except.ok.injEq, Prod.mk.injEq] at h
        exact Or.inr ⟨h.2.symm, Or.inr ⟨u, hu, h.1 ▸ hl⟩⟩
  · rename_i hf
    split at h
    · rename_i hs
      split at h
      · exact absurd h (by simp)
      · rename_i u hu
        split at h
        · exact absurd h (by simp)
        · rename_i l' hl
          simp only [Except.ok.injEq, Prod.mk.injEq] at h
          exact Or.inr ⟨h.2.symm, Or.inr ⟨u, hu, h.1 ▸ hl⟩⟩
    · rename_i hs
      simp only [Except.ok.injEq, Prod.mk.injEq] at h
      exact Or.inl ⟨h.2.symm, h.1.symm, hs, hf⟩
    · rename_i hs
      simp only [Except.ok.injEq, Prod.mk.injEq] at h
      exact Or.inr ⟨h.2.symm, Or.inl h.1.symm⟩

/-- A successful `process_spatial_insert` issues one raster or one vector
insertion (or nothing, for a non-spatial `dataset_type`). -/
theorem spatialInsertCalls_shape (e : Engine) (t : Table) (l : List EngineCall)
    (h : spatialInsertCalls e t = .ok l) :
    l = [] ∨ (∃ p, l = [EngineCall.insertRaster p]) ∨
      (∃ p, l = [EngineCall.insertVector p]) := by
  unfold spatialInsertCalls at h
  split at h
  · split at h
    · split at h
      · rename_i p hp
        exact Or.inr (Or.inl ⟨_, by simpa using h.symm⟩)
      · exact absurd h (by simp)
    · split at h
      · split at h
        · rename_i p hp
          exact Or.inr (Or.inr ⟨_, by simpa using h.symm⟩)
        · exact absurd h (by simp)
      · exact Or.inl (by simpa using h.symm)
  · exact Or.inl (by simpa using h.symm)

/-- For a raster (resp. vector) `dataset_type`, a successful
`process_spatial_insert` issues exactly the corresponding insertion on the
table's formatted path. -/
theorem spatialInsertCalls_spatial (e : Engine) (t : Table) (dt : String)
    (l : List EngineCall) (hd : t.dataset_type = some dt)
    (h : spatialInsertCalls e t = .ok l) :
    (dt = "RasterDataset" →
      ∃ p, t.path = some p ∧ l = [EngineCall.insertRaster (e.format_filename p)]) ∧
    (dt = "VectorDataset" →
      ∃ p, t.path = some p ∧ l = [EngineCall.insertVector (e.format_filename p)]) := by
  unfold spatialInsertCalls at h
  split at h
  · rename_i dt' hd'
    rw [hd] at hd'
    injection hd' with hdd
    subst hdd
    split at h
    · rename_i hr
      split at h
      · rename_i p hp
        refine ⟨fun _ => ⟨p, hp, by simpa using h.symm⟩, fun hv => ?_⟩
        rw [hr] at hv
        exact absurd hv (by decide)
      · exact absurd h (by simp)
    · rename_i hr
      split at h
      · rename_i hv
        split at h
        · rename_i p hp
          exact ⟨fun hr' => absurd hr' hr, fun _ => ⟨p, hp, by simpa using h.symm⟩⟩
        · exact absurd h (by simp)
      · rename_i hv
        exact ⟨fun hr' => absurd hr' hr, fun hv' => absurd hv' hv⟩
  · rename_i hd'
    rw [hd] at hd'
    exact absurd hd' (by simp)

/-- A successful `process_tabular_insert` issues exactly one call: from the
formatted file when a `path` is present (or the script is archived), else
streamed from the URL. -/
theorem tabularInsertCalls_shape (s : Script) (e : Engine) (t : Table) (url : String)
    (l : List EngineCall) (h : tabularInsertCalls s e t url = .ok l) :
    (∃ p, t.path = some p ∧ l = [EngineCall.insertDataFromFile (e.format_filename p)])
  ∨ (s.archived = none ∧ t.path = none ∧ l = [EngineCall.insertDataFromUrl url]) := by
  unfold tabularInsertCalls at h
  split at h
  · split at h
    · rename_i p hp
      exact Or.inl ⟨p, hp, by simpa using h.symm⟩
    · exact absurd h (by simp)
  · rename_i hc
    simp only [Bool.or_eq_true, not_or, Bool.not_eq_true] at hc
    exact Or.inr ⟨Option.not_isSome_iff_eq_none.mp (by simp [hc.1]),
      Option.not_isSome_iff_eq_none.mp (by simp [hc.2]), by simpa using h.symm⟩

/-- A table without a `dataset_type` attribute gets no insertion call and no
`continue`. -/
theorem insertionStage_none (s : Script) (e : Engine) (t : Table) (urlB : Option String)
    (hd : t.dataset_type = none) : insertionStage s e t urlB = .ok ([], false) := by
  simp [insertionStage, hd]

/-- Case analysis on a successful insertion stage: no `dataset_type` (nothing
happens), a spatial `dataset_type` (spatial insertion, then `continue`), or a
non-spatial `dataset_type` (tabular insertion, no `continue`). -/
theorem insertionStage_cases (s : Script) (e : Engine) (t : Table) (urlB : Option String)
    (l : List EngineCall) (cont : Bool) (h : insertionStage s e t urlB = .ok (l, cont)) :
    (t.dataset_type = none ∧ l = [] ∧ cont = false)
  ∨ (∃ dt, t.dataset_type = some dt ∧ (dt = "RasterDataset" ∨ dt = "VectorDataset") ∧
      cont = true ∧ spatialInsertCalls e t = .ok l)
  ∨ (∃ dt u, t.dataset_type = some dt ∧ dt ≠ "RasterDataset" ∧ dt ≠ "VectorDataset" ∧
      cont = false ∧ useUrl urlB = .ok u ∧ tabularInsertCalls s e t u = .ok l) := by
  unfold insertionStage at h
  split at h
  · rename_i dt hd
    split at h
    · rename_i hdt
      split at h
      · exact absurd h (by simp)
      · rename_i l' hl
        simp only [Except.ok.injEq, Prod.mk.injEq] at h
        exact Or.inr (Or.inl ⟨dt, hd, hdt, h.2.symm, h.1 ▸ hl⟩)
    · rename_i hdt
      rw [not_or] at hdt
      split at h
      · exact absurd h (by simp)
      · rename_i u hu
        split at h
        · exact absurd h (by simp)
        · rename_i l' hl
          simp only [Except.ok.injEq, Prod.mk.injEq] at h
          exact Or.inr (Or.inr ⟨dt, u, hd, hdt.1, hdt.2, h.2.symm, hu, h.1 ▸ hl⟩)
  · rename_i hd
    simp only [Except.ok.injEq, Prod.mk.injEq] at h
    exact Or.inl ⟨hd, h.1.symm, h.2.symm⟩

/-- Inversion of one loop iteration: a successful iteration resolved the
`url` binding, ran the archive stage, ran the creation stage, and then either
aborted (capability mismatch), continued spatially, or completed normally with
the trailing `disconnect_files`. -/
theorem processTable_inv (s : Script) (e : Engine) (t : Table) (prev : Option String)
    (r : List EngineCall × Option String × Outcome) (h : processTable s e t prev = .ok r) :
    ∃ urlB a c i,
      resolveUrlBind s t prev = .ok urlB ∧
      archiveStage s t urlB = .ok a ∧
      ((creationStage s e t urlB = .ok (c, true) ∧ i = [] ∧
          r = (a ++ c, urlB, .abortRun))
       ∨ (creationStage s e t urlB = .ok (c, false) ∧
          ((insertionStage s e t urlB = .ok (i, true) ∧
              r = (a ++ c ++ i, urlB, .spatialContinue))
           ∨ (insertionStage s e t urlB = .ok (i, false) ∧
              r = (a ++ c ++ i ++ [.disconnectFiles], urlB, .normal))))) := by
  unfold processTable at h
  split at h
  · exact absurd h (by simp)
  · rename_i urlB hu
    split at h
    · exact absurd h (by simp)
    · rename_i a ha
      split at h
      · exact absurd h (by simp)
      · rename_i c hc
        exact ⟨urlB, a, c, [], hu, ha, Or.inl ⟨hc, rfl, by simpa using h.symm⟩⟩
      · rename_i c hc
        split at h
        · exact absurd h (by simp)
        · rename_i i hi
          exact ⟨urlB, a, c, i, hu, ha, Or.inr ⟨hc, Or.inl ⟨hi, by simpa using h.symm⟩⟩⟩
        · rename_i i hi
          exact ⟨urlB, a, c, i, hu, ha, Or.inr ⟨hc, Or.inr ⟨hi, by simpa using h.symm⟩⟩⟩

/-- When the table's format is not tabular and the engine has no
`spatial_support` attribute at all, the creation stage does nothing: no
calls, no diagnostic, no abort. -/
theorem creationStage_skip (s : Script) (e : Engine) (t : Table) (urlB : Option String)
    (hf : t.format ≠ some "tabular") (hs : e.spatial_support = none) :
    creationStage s e t urlB = .ok ([], false) := by
  simp [creationStage, hf, hs]

/-- Every call of the archive segment is the archive call and nothing else. -/
theorem archiveStage_mem (s : Script) (t : Table) (urlB : Option String)
    (l : List EngineCall) (h : archiveStage s t urlB = .ok l)
    (c : EngineCall) (hc : c ∈ l) :
    c.isArchiveCall = true ∧ c.isInsert = false ∧ c.isTabularInsert = false ∧
    c.isDisconnect = false ∧ c.isCreateTable = false ∧ c.isDiag = false := by
  rcases archiveStage_ok_cases s t urlB l h with ⟨_, _, rfl⟩ | ⟨_, u, files, _, _, rfl⟩
  · simp at hc
  · simp only [List.mem_singleton] at hc
    subst hc
    exact ⟨rfl, rfl, rfl, rfl, rfl, rfl⟩

/-- Every call of a `process_tables` pass is a download, a conversion, or the
creation call: never an insertion, archive, disconnect or diagnostic. -/
theorem processTablesCalls_mem (s : Script) (e : Engine) (t : Table) (url : String)
    (l : List EngineCall) (h : processTablesCalls s e t url = .ok l)
    (c : EngineCall) (hc : c ∈ l) :
    c.isInsert = false ∧ c.isTabularInsert = false ∧ c.isArchiveCall = false ∧
    c.isDisconnect = false ∧ c.isDiag = false := by
  obtain ⟨a, b, ha, hb, rfl⟩ := processTablesCalls_shape s e t url l h
  rcases List.mem_append.mp hc with hc' | hc'
  · rcases List.mem_append.mp hc' with hc'' | hc''
    · rcases xlsConvCalls_shape s e t url a ha with ⟨_, rfl⟩ | ⟨xs, p, _, _, rfl⟩
      · simp at hc''
      · rcases (by simpa using hc'' : _ ∨ _) with rfl | rfl
        · exact ⟨rfl, rfl, rfl, rfl, rfl⟩
        · exact ⟨rfl, rfl, rfl, rfl, rfl⟩
    · rcases geoConvCalls_shape e t url b hb with ⟨_, rfl⟩ | ⟨g, p, _, _, rfl⟩
      · simp at hc''
      · rcases (by simpa using hc'' : _ ∨ _) with rfl | rfl
        · exact ⟨rfl, rfl, rfl, rfl, rfl⟩
        · exact ⟨rfl, rfl, rfl, rfl, rfl⟩
  · have hcc : c = createCall t url := by simpa using hc'
    subst hcc
    unfold createCall
    cases t.path <;> exact ⟨rfl, rfl, rfl, rfl, rfl⟩

/-- Every call of the creation stage is harmless for the insertion-related
predicates: never an insertion, archive call or disconnect. -/
theorem creationStage_mem (s : Script) (e : Engine) (t : Table) (urlB : Option String)
    (l : List EngineCall) (ab : Bool) (h : creationStage s e t urlB = .ok (l, ab))
    (c : EngineCall) (hc : c ∈ l) :
    c.isInsert = false ∧ c.isTabularInsert = false ∧ c.isArchiveCall = false ∧
    c.isDisconnect = false := by
  rcases creationStage_shape s e t urlB l ab h with ⟨_, rfl, _, _⟩ | ⟨_, hl⟩
  · simp only [List.mem_singleton] at hc
    subst hc
    exact ⟨rfl, rfl, rfl, rfl⟩
  · rcases hl with rfl | ⟨u, _, hl'⟩
    · simp at hc
    · have := processTablesCalls_mem s e t u l hl' c hc
      exact ⟨this.1, this.2.1, this.2.2.1, this.2.2.2.1⟩

/-- When the creation stage did not abort, it also emitted no diagnostic and
no creation-stage call is a create-table call unless it came from
`process_tables`.  (Only the diagnostic part is recorded here.) -/
theorem creationStage_mem_noDiag (s : Script) (e : Engine) (t : Table) (urlB : Option String)
    (l : List EngineCall) (h : creationStage s e t urlB = .ok (l, false))
    (c : EngineCall) (hc : c ∈ l) : c.isDiag = false := by
  rcases creationStage_shape s e t urlB l false h with ⟨hab, _, _, _⟩ | ⟨_, hl⟩
  · exact absurd hab (by simp)
  · rcases hl with rfl | ⟨u, _, hl'⟩
    · simp at hc
    · exact (processTablesCalls_mem s e t u l hl' c hc).2.2.2.2

/-- Every call of the insertion stage is an insertion. -/
theorem insertionStage_mem (s : Script) (e : Engine) (t : Table) (urlB : Option String)
    (l : List EngineCall) (cont : Bool) (h : insertionStage s e t urlB = .ok (l, cont))
    (c : EngineCall) (hc : c ∈ l) : c.isInsert = true := by
  rcases insertionStage_cases s e t urlB l cont h with
    ⟨_, rfl, _⟩ | ⟨dt, _, _, _, hl⟩ | ⟨dt, u, _, _, _, _, _, hl⟩
  · simp at hc
  · rcases spatialInsertCalls_shape e t l hl with rfl | ⟨p, rfl⟩ | ⟨p, rfl⟩
    · simp at hc
    · simp only [List.mem_singleton] at hc
      subst hc
      rfl
    · simp only [List.mem_singleton] at hc
      subst hc
      rfl
  · rcases tabularInsertCalls_shape s e t u l hl with ⟨p, _, rfl⟩ | ⟨_, _, rfl⟩
    · simp only [List.mem_singleton] at hc
      subst hc
      rfl
    · simp only [List.mem_singleton] at hc
      subst hc
      rfl

/-- Pointwise: an insertion call is not an archive, create-table, disconnect
or diagnostic call. -/
theorem isInsert_classify (c : EngineCall) (h : c.isInsert = true) :
    c.isArchiveCall = false ∧ c.isCreateTable = false ∧ c.isDiag = false ∧
    c.isDisconnect = false := by
  cases c <;> simp_all [EngineCall.isInsert, EngineCall.isArchiveCall,
    EngineCall.isCreateTable, EngineCall.isDiag, EngineCall.isDisconnect]

/-- Adequacy: the loop function realizes the relation. -/
theorem downloadLoop_rel (s : Script) (e : Engine) (ts : List Table) (prev : Option String) :
    DownloadRel s e ts prev (downloadLoop s e ts prev) := by
  induction ts generalizing prev with
  | nil => exact .nil prev
  | cons t ts ih =>
    cases hp : processTable s e t prev with
    | error er =>
      have : downloadLoop s e (t :: ts) prev = .error er := by
        unfold downloadLoop
        rw [hp]
      rw [this]
      exact .err t ts prev er hp
    | ok r =>
      obtain ⟨calls, urlB, out⟩ := r
      cases out with
      | abortRun =>
        have : downloadLoop s e (t :: ts) prev = .ok calls := by
          unfold downloadLoop
          rw [hp]
        rw [this]
        exact .abort t ts prev calls urlB hp
      | normal =>
        cases hr : downloadLoop s e ts urlB with
        | error er =>
          have : downloadLoop s e (t :: ts) prev = .error er := by
            unfold downloadLoop
            rw [hp]
            simp [hr]
          rw [this]
          exact .stepErr t ts prev calls urlB .normal er hp (by simp) (hr ▸ ih urlB)
        | ok rest =>
          have : downloadLoop s e (t :: ts) prev = .ok (calls ++ rest) := by
            unfold downloadLoop
            rw [hp]
            simp [hr]
          rw [this]
          exact .stepOk t ts prev calls urlB .normal rest hp (by simp) (hr ▸ ih urlB)
      | spatialContinue =>
        cases hr : downloadLoop s e ts urlB with
        | error er =>
          have : downloadLoop s e (t :: ts) prev = .error er := by
            unfold downloadLoop
            rw [hp]
            simp [hr]
          rw [this]
          exact .stepErr t ts prev calls urlB .spatialContinue er hp (by simp) (hr ▸ ih urlB)
        | ok rest =>
          have : downloadLoop s e (t :: ts) prev = .ok (calls ++ rest) := by
            unfold downloadLoop
            rw [hp]
            simp [hr]
          rw [this]
          exact .stepOk t ts prev calls urlB .spatialContinue rest hp (by simp) (hr ▸ ih urlB)

/-- Projections of an equality of triples. -/
theorem tripleInj {A B C : Type} {a a2 : A} {b b2 : B} {c c2 : C}
    (h : (a, b, c) = (a2, b2, c2)) : a = a2 ∧ b = b2 ∧ c = c2 := by
  injection h with h1 h23
  injection h23 with h2 h3
  exact ⟨h1, h2, h3⟩

/-- Functionality of the loop relation: any two results related to the same
remaining tables and the same `url` binding are equal. -/
theorem downloadRel_det (s : Script) (e : Engine) (ts : List Table) (prev : Option String)
    (r₁ r₂ : Except PyError (List EngineCall))
    (h₁ : DownloadRel s e ts prev r₁) : DownloadRel s e ts prev r₂ → r₁ = r₂ := by
  induction h₁ generalizing r₂ with
  | nil prev =>
    intro h₂
    cases h₂
    rfl
  | err t ts prev er hp =>
    intro h₂
    cases h₂ with
    | err _ _ _ er2 hp2 =>
      rw [hp] at hp2
      injection hp2 with h2
      rw [h2]
    | abort _ _ _ calls2 urlB2 hp2 => rw [hp] at hp2; exact absurd hp2 (by simp)
    | stepOk _ _ _ calls2 urlB2 out2 rest2 hp2 _ _ => rw [hp] at hp2; exact absurd hp2 (by simp)
    | stepErr _ _ _ calls2 urlB2 out2 er2 hp2 _ _ => rw [hp] at hp2; exact absurd hp2 (by simp)
  | abort t ts prev calls urlB hp =>
    intro h₂
    cases h₂ with
    | err _ _ _ er2 hp2 => rw [hp] at hp2; exact absurd hp2 (by simp)
    | abort _ _ _ calls2 urlB2 hp2 =>
      rw [hp] at hp2
      injection hp2 with h2
      obtain ⟨hc, _, _⟩ := tripleInj h2
      rw [hc]
    | stepOk _ _ _ calls2 urlB2 out2 rest2 hp2 hno2 _ =>
      rw [hp] at hp2
      injection hp2 with h2
      obtain ⟨_, _, ho⟩ := tripleInj h2
      exact absurd ho.symm hno2
    | stepErr _ _ _ calls2 urlB2 out2 er2 hp2 hno2 _ =>
      rw [hp] at hp2
      injection hp2 with h2
      obtain ⟨_, _, ho⟩ := tripleInj h2
      exact absurd ho.symm hno2
  | stepOk t ts prev calls urlB out rest hp hno hr ih =>
    intro h₂
    cases h₂ with
    | err _ _ _ er2 hp2 => rw [hp] at hp2; exact absurd hp2 (by simp)
    | abort _ _ _ calls2 urlB2 hp2 =>
      rw [hp] at hp2
      injection hp2 with h2
      obtain ⟨_, _, ho⟩ := tripleInj h2
      exact absurd ho hno
    | stepOk _ _ _ calls2 urlB2 out2 rest2 hp2 hno2 hr2 =>
      rw [hp] at hp2
      injection hp2 with h2
      obtain ⟨hc, hu, _⟩ := tripleInj h2
      have hres := ih (.ok rest2) (hu.symm ▸ hr2)
      injection hres with h3
      rw [hc, h3]
    | stepErr _ _ _ calls2 urlB2 out2 er2 hp2 hno2 hr2 =>
      rw [hp] at hp2
      injection hp2 with h2
      obtain ⟨_, hu, _⟩ := tripleInj h2
      exact absurd (ih (.error er2) (hu.symm ▸ hr2)) (by simp)
  | stepErr t ts prev calls urlB out er hp hno hr ih =>
    intro h₂
    cases h₂ with
    | err _ _ _ er2 hp2 => rw [hp] at hp2; exact absurd hp2 (by simp)
    | abort _ _ _ calls2 urlB2 hp2 =>
      rw [hp] at hp2
      injection hp2 with h2
      obtain ⟨_, _, ho⟩ := tripleInj h2
      exact absurd ho hno
    | stepOk _ _ _ calls2 urlB2 out2 rest2 hp2 hno2 hr2 =>
      rw [hp] at hp2
      injection hp2 with h2
      obtain ⟨_, hu, _⟩ := tripleInj h2
      exact absurd (ih (.ok rest2) (hu.symm ▸ hr2)) (by simp)
    | stepErr _ _ _ calls2 urlB2 out2 er2 hp2 hno2 hr2 =>
      rw [hp] at hp2
      injection hp2 with h2
      obtain ⟨_, hu, _⟩ := tripleInj h2
      exact ih (.error er2) (hu.symm ▸ hr2)

/-- The capability mismatch: non-tabular format plus an engine that reports
`spatial_support == False` make the creation stage print the diagnostic and
hit the `return`. -/
theorem creationStage_mismatch (s : Script) (e : Engine) (t : Table) (urlB : Option String)
    (hf : t.format ≠ some "tabular") (hs : e.spatial_support = some false) :
    creationStage s e t urlB = .ok ([.printNoSpatial e.name], true) := by
  simp [creationStage, hf, hs]

/-- The `xls_sheets` override: whenever the file-list computation succeeds on
a table with `xls_sheets`, the list is exactly the spreadsheet source file. -/
theorem archiveFiles_xls (s : Script) (t : Table) (xs : Nat × String)
    (files : Option (List String)) (hx : t.xls_sheets = some xs)
    (h : archiveFiles s t = .ok files) : files = some [xs.2] := by
  unfold archiveFiles at h
  split at h
  · rename_i xs' hx'
    rw [hx] at hx'
    injection hx' with hxx
    subst hxx
    split at h
    · injection h with h'
      exact h'.symm
    · exact absurd h (by simp)
  · rename_i hx'
    rw [hx] at hx'
    exact absurd hx' (by simp)

/-- A list none of whose elements satisfies `p` has `any p = false`. -/
theorem anyEqFalse {A : Type} {p : A → Bool} {l : List A}
    (h : ∀ c ∈ l, p c = false) : l.any p = false := by
  rw [List.any_eq_false]
  intro x hx
  simp [h x hx]

/-! ### Claims -/

/-- Claim C1, counterexample.  On a dataset whose first table hits the
capability mismatch, the run's trace ends at the diagnostic: the sibling
table's calls (creation, insertion, disconnect) never happen, because the
code returns out of the whole loop instead of continuing with the next
table — sibling tables are NOT still processed. -/
theorem capabilityMismatchStopsRun_cex :
    download mismatchScript sqliteNoSpatial =
      .ok [.createDb, .printNoSpatial "sqlite"]
  ∧ processTable mismatchScript sqliteNoSpatial siblingTable (some "http://u") =
      .ok ([.autoCreateTable "http://u" none, .insertDataFromUrl "http://u",
            .disconnectFiles], some "http://u", .normal)
  ∧ EngineCall.disconnectFiles ∉
      [EngineCall.createDb, EngineCall.printNoSpatial "sqlite"]
  ∧ EngineCall.autoCreateTable "http://u" none ∉
      [EngineCall.createDb, EngineCall.printNoSpatial "sqlite"] :=
  ⟨rfl, rfl, by decide, by decide⟩

/-- Claim C1 (amended): when a table's format is not tabular and the engine
reports `spatial_support == False`, that table's iteration emits the
capability-mismatch diagnostic, makes no engine insertion call, and the whole
loop returns: the run's remaining trace is exactly this table's calls, so the
remaining sibling tables are not processed (a whole-run abort, not a
per-table short-circuit). -/
theorem capabilityMismatchStopsRun (s : Script) (e : Engine) (t : Table) (ts : List Table)
    (prev : Option String) (calls : List EngineCall) (urlB : Option String) (out : Outcome)
    (hf : t.format ≠ some "tabular") (hs : e.spatial_support = some false)
    (h : processTable s e t prev = .ok (calls, urlB, out)) :
    out = .abortRun
  ∧ EngineCall.printNoSpatial e.name ∈ calls
  ∧ calls.any EngineCall.isInsert = false
  ∧ downloadLoop s e (t :: ts) prev = .ok calls := by
  obtain ⟨urlB0, a, c, i, hu, ha, hcase⟩ := processTable_inv s e t prev _ h
  have hmm := creationStage_mismatch s e t urlB0 hf hs
  rcases hcase with ⟨hc, hi0, hr⟩ | ⟨hc, _⟩
  · rw [hmm] at hc
    injection hc with hc2
    have hcl : c = [EngineCall.printNoSpatial e.name] := (congrArg Prod.fst hc2).symm
    obtain ⟨hcalls, hurl, hout⟩ := tripleInj hr
    have hano : a.any EngineCall.isInsert = false :=
      anyEqFalse fun x hx => (archiveStage_mem s t urlB0 a ha x hx).2.1
    refine ⟨hout, ?_, ?_, ?_⟩
    · rw [hcalls, hcl]
      exact List.mem_append_right _ (by simp)
    · rw [hcalls, hcl, List.any_append, hano]
      rfl
    · rw [hout] at h
      simp [downloadLoop, h]
  · rw [hmm] at hc
    injection hc with hc2
    have h3 : (true : Bool) = false := congrArg Prod.snd hc2
    exact absurd h3 (by decide)

/-- Claim C1, witness: the amended theorem at the mismatch fixture. -/
theorem capabilityMismatchStopsRun_wit :
    Outcome.abortRun = Outcome.abortRun
  ∧ EngineCall.printNoSpatial "sqlite" ∈ [EngineCall.printNoSpatial "sqlite"]
  ∧ ([EngineCall.printNoSpatial "sqlite"].any EngineCall.isInsert) = false
  ∧ downloadLoop mismatchScript sqliteNoSpatial [{}] none =
      .ok [EngineCall.printNoSpatial "sqlite"] :=
  capabilityMismatchStopsRun mismatchScript sqliteNoSpatial {} [] none
    [EngineCall.printNoSpatial "sqlite"] (some "http://u") .abortRun
    (by decide) rfl rfl

/-- Claim C2, counterexample.  A table with no `dataset_type` attribute gets
NO insertion call at all: the run's trace for a tabular-format table without
`dataset_type` contains creation and cleanup but no insertion, because the
whole insertion block is guarded by `hasattr(table_obj, "dataset_type")`. -/
theorem datasetTypeAbsentNoInsert_cex :
    download noDatasetTypeScript plainEngine =
      .ok [.createDb, .autoCreateTable "http://u" none, .disconnectFiles]
  ∧ ([EngineCall.createDb, EngineCall.autoCreateTable "http://u" none,
      EngineCall.disconnectFiles].any EngineCall.isInsert) = false :=
  ⟨rfl, by decide⟩

/-- Claim C2 (amended): for every table descriptor with no `dataset_type`
attribute, no insertion stage runs at all — absence of `dataset_type` selects
no insertion, not tabular insertion. -/
theorem datasetTypeAbsentNoInsert (s : Script) (e : Engine) (t : Table)
    (prev : Option String) (calls : List EngineCall) (urlB : Option String) (out : Outcome)
    (hd : t.dataset_type = none)
    (h : processTable s e t prev = .ok (calls, urlB, out)) :
    calls.any EngineCall.isInsert = false := by
  obtain ⟨urlB0, a, c, i, hu, ha, hcase⟩ := processTable_inv s e t prev _ h
  have hins := insertionStage_none s e t urlB0 hd
  have hano : a.any EngineCall.isInsert = false :=
    anyEqFalse fun x hx => (archiveStage_mem s t urlB0 a ha x hx).2.1
  rcases hcase with ⟨hc, _, hr⟩ | ⟨hc, hcase2⟩
  · obtain ⟨hcalls, _, _⟩ := tripleInj hr
    have hcno : c.any EngineCall.isInsert = false :=
      anyEqFalse fun x hx => (creationStage_mem s e t urlB0 c true hc x hx).1
    rw [hcalls, List.any_append, hano, hcno]
    rfl
  · have hcno : c.any EngineCall.isInsert = false :=
      anyEqFalse fun x hx => (creationStage_mem s e t urlB0 c false hc x hx).1
    rcases hcase2 with ⟨hi, hr⟩ | ⟨hi, hr⟩
    · rw [hins] at hi
      injection hi with hi2
      have h3 : (false : Bool) = true := congrArg Prod.snd hi2
      exact absurd h3 (by decide)
    · rw [hins] at hi
      injection hi with hi2
      have hieq : ([] : List EngineCall) = i := congrArg Prod.fst hi2
      obtain ⟨hcalls, _, _⟩ := tripleInj hr
      rw [hcalls, ← hieq]
      simp only [List.append_nil]
      rw [List.any_append, List.any_append, hano, hcno]
      rfl

/-- Claim C2, witness: the amended theorem at the fixture. -/
theorem datasetTypeAbsentNoInsert_wit :
    ([EngineCall.autoCreateTable "http://u" none, EngineCall.disconnectFiles].any
      EngineCall.isInsert) = false :=
  datasetTypeAbsentNoInsert noDatasetTypeScript plainEngine { format := some "tabular" }
    none [EngineCall.autoCreateTable "http://u" none, EngineCall.disconnectFiles]
    (some "http://u") .normal rfl rfl

/-- Claim C3, counterexample.  On a table carrying both `xls_sheets` and
`geojson_data`, the run invokes BOTH conversions — the geojson conversion
does run after the spreadsheet conversion in the same pass, because the two
blocks are independent `if` statements. -/
theorem bothConversionsRun_cex :
    download bothConvScript plainEngine = .ok
      [.createDb, .downloadFile "http://u" "book.xlsx",
       .excelToCsv "book.xlsx" "out.csv" (0, "book.xlsx") "utf-8",
       .downloadFile "http://u" "g.json", .geojson2csv "g.json" "out.csv",
       .autoCreateTable "http://u" (some "out.csv"), .disconnectFiles]
  ∧ EngineCall.geojson2csv "g.json" "out.csv" ∈
      [EngineCall.createDb, EngineCall.downloadFile "http://u" "book.xlsx",
       EngineCall.excelToCsv "book.xlsx" "out.csv" (0, "book.xlsx") "utf-8",
       EngineCall.downloadFile "http://u" "g.json",
       EngineCall.geojson2csv "g.json" "out.csv",
       EngineCall.autoCreateTable "http://u" (some "out.csv"),
       EngineCall.disconnectFiles]
  ∧ EngineCall.excelToCsv "book.xlsx" "out.csv" (0, "book.xlsx") "utf-8" ∈
      [EngineCall.createDb, EngineCall.downloadFile "http://u" "book.xlsx",
       EngineCall.excelToCsv "book.xlsx" "out.csv" (0, "book.xlsx") "utf-8",
       EngineCall.downloadFile "http://u" "g.json",
       EngineCall.geojson2csv "g.json" "out.csv",
       EngineCall.autoCreateTable "http://u" (some "out.csv"),
       EngineCall.disconnectFiles] :=
  ⟨rfl, by decide, by decide⟩

/-- Claim C3 (amended): when both `xls_sheets` and `geojson_data` are present
(and a `path` is set), the table pass runs the spreadsheet conversion first
and then ALSO the geojson conversion, in that order, before the creation
call. -/
theorem bothConversionsRun (s : Script) (e : Engine) (t : Table) (url : String)
    (xs : Nat × String) (g p : String)
    (hx : t.xls_sheets = some xs) (hg : t.geojson_data = some g) (hp : t.path = some p) :
    processTablesCalls s e t url = .ok
      [.downloadFile url xs.2,
       .excelToCsv (e.format_filename xs.2) (e.format_filename p) xs s.encoding,
       .downloadFile url g,
       .geojson2csv (e.format_filename g) (e.format_filename p),
       .autoCreateTable url (some p)] := by
  simp [processTablesCalls, xlsConvCalls, geoConvCalls, createCall, hx, hg, hp]

/-- Claim C3, witness: the amended theorem at the two-marker fixture. -/
theorem bothConversionsRun_wit :
    processTablesCalls bothConvScript plainEngine bothConvTable "http://u" = .ok
      [.downloadFile "http://u" "book.xlsx",
       .excelToCsv "book.xlsx" "out.csv" (0, "book.xlsx") "utf-8",
       .downloadFile "http://u" "g.json", .geojson2csv "g.json" "out.csv",
       .autoCreateTable "http://u" (some "out.csv")] :=
  bothConversionsRun bothConvScript plainEngine bothConvTable "http://u"
    (0, "book.xlsx") "g.json" "out.csv" rfl rfl rfl

/-- Claim C4, counterexample.  A table with no `url` on a dataset with no
`url` attribute fails with an `AttributeError` (reading `self.url`), not with
a `ConfigurationError`: the code has no such error class. -/
theorem urlResolutionFails_cex :
    download noUrlScript plainEngine = .error .attributeError
  ∧ PyError.attributeError ≠ PyError.configurationError :=
  ⟨rfl, by decide⟩

/-- Claim C4 (amended): the effective URL is the table's own `url` when
present and non-empty, else the dataset's truthy `url`; when the table has no
usable `url` and the dataset has no `url` attribute at all, the iteration
fails before any engine call with an `AttributeError` (the code never raises
a `ConfigurationError`). -/
theorem urlResolution (s : Script) (e : Engine) (t : Table) (prev : Option String)
    (u v : String) :
    (t.url = some u → u ≠ "" → resolveUrlBind s t prev = .ok (some u))
  ∧ (t.url = none → s.url = some v → v ≠ "" → resolveUrlBind s t prev = .ok (some v))
  ∧ (t.url = none → s.url = none → processTable s e t prev = .error .attributeError) := by
  refine ⟨fun hu hne => ?_, fun ht hv hne => ?_, fun ht hsu => ?_⟩
  · simp [resolveUrlBind, hu, hne]
  · simp [resolveUrlBind, scriptFallback, ht, hv, hne]
  · have hres : resolveUrlBind s t prev = .error .attributeError := by
      simp [resolveUrlBind, scriptFallback, ht, hsu]
    simp [processTable, hres]

/-- Claim C4, witness: the three resolution modes at concrete descriptors. -/
theorem urlResolution_wit :
    resolveUrlBind defaultUrlScript ownUrlTable none = .ok (some "http://t")
  ∧ resolveUrlBind defaultUrlScript ({} : Table) none = .ok (some "http://d")
  ∧ processTable ({} : Script) plainEngine ({} : Table) none = .error .attributeError :=
  ⟨(urlResolution defaultUrlScript plainEngine ownUrlTable none "http://t" "http://d").1
      rfl (by decide),
   (urlResolution defaultUrlScript plainEngine {} none "http://t" "http://d").2.1
      rfl rfl (by decide),
   (urlResolution {} plainEngine {} none "x" "y").2.2 rfl rfl⟩

/-- Claim C5, counterexample.  A vector table that completes normally (spec
scenario C) gets NO `disconnect_files` call: the spatial-insert branch ends
in `continue`, skipping the per-iteration cleanup. -/
theorem cleanupSkippedOnSpatial_cex :
    download vectorScript spatialEngine = .ok
      [.createDb, .autoCreateTable "http://u" (some "shape.shp"), .insertVector "shape.shp"]
  ∧ EngineCall.disconnectFiles ∉
      [EngineCall.createDb, EngineCall.autoCreateTable "http://u" (some "shape.shp"),
       EngineCall.insertVector "shape.shp"] :=
  ⟨rfl, by decide⟩

/-- Claim C5 (amended): the per-table cleanup runs, last, for every iteration
that reaches the end of the loop body (tabular or absent insertion); it is
skipped both for capability-aborted tables AND for tables that took a spatial
(raster/vector) insertion, whose branch `continue`s past the cleanup. -/
theorem cleanupAfterInsertion (s : Script) (e : Engine) (t : Table) (prev : Option String)
    (calls : List EngineCall) (urlB : Option String) (out : Outcome)
    (h : processTable s e t prev = .ok (calls, urlB, out)) :
    (out = .normal → calls.getLast? = some .disconnectFiles)
  ∧ (out = .spatialContinue → calls.any EngineCall.isDisconnect = false)
  ∧ (out = .abortRun → calls.any EngineCall.isDisconnect = false) := by
  obtain ⟨urlB0, a, c, i, hu, ha, hcase⟩ := processTable_inv s e t prev _ h
  have hand : a.any EngineCall.isDisconnect = false :=
    anyEqFalse fun x hx => (archiveStage_mem s t urlB0 a ha x hx).2.2.2.1
  rcases hcase with ⟨hc, hi0, hr⟩ | ⟨hc, hcase2⟩
  · obtain ⟨hcalls, _, hout⟩ := tripleInj hr
    subst hout
    have hcnd : c.any EngineCall.isDisconnect = false :=
      anyEqFalse fun x hx => (creationStage_mem s e t urlB0 c true hc x hx).2.2.2
    refine ⟨fun h2 => absurd h2 (by decide), fun h2 => absurd h2 (by decide), fun _ => ?_⟩
    rw [hcalls, List.any_append, hand, hcnd]
    rfl
  · rcases hcase2 with ⟨hi, hr⟩ | ⟨hi, hr⟩
    · obtain ⟨hcalls, _, hout⟩ := tripleInj hr
      subst hout
      have hcnd : c.any EngineCall.isDisconnect = false :=
        anyEqFalse fun x hx => (creationStage_mem s e t urlB0 c false hc x hx).2.2.2
      have hind : i.any EngineCall.isDisconnect = false :=
        anyEqFalse fun x hx =>
          (isInsert_classify x (insertionStage_mem s e t urlB0 i true hi x hx)).2.2.2
      refine ⟨fun h2 => absurd h2 (by decide), fun _ => ?_, fun h2 => absurd h2 (by decide)⟩
      rw [hcalls, List.any_append, List.any_append, hand, hcnd, hind]
      rfl
    · obtain ⟨hcalls, _, hout⟩ := tripleInj hr
      subst hout
      refine ⟨fun _ => ?_, fun h2 => absurd h2 (by decide), fun h2 => absurd h2 (by decide)⟩
      rw [hcalls]
      simp

/-- Claim C5, witness: the amended theorem at the vector fixture, whose
iteration ends with the spatial `continue`. -/
theorem cleanupAfterInsertion_wit :
    (Outcome.spatialContinue = Outcome.normal →
      ([EngineCall.autoCreateTable "http://u" (some "shape.shp"),
        EngineCall.insertVector "shape.shp"].getLast?) = some .disconnectFiles)
  ∧ (Outcome.spatialContinue = Outcome.spatialContinue →
      ([EngineCall.autoCreateTable "http://u" (some "shape.shp"),
        EngineCall.insertVector "shape.shp"].any EngineCall.isDisconnect) = false)
  ∧ (Outcome.spatialContinue = Outcome.abortRun →
      ([EngineCall.autoCreateTable "http://u" (some "shape.shp"),
        EngineCall.insertVector "shape.shp"].any EngineCall.isDisconnect) = false) :=
  cleanupAfterInsertion vectorScript spatialEngine vectorTable none
    [EngineCall.autoCreateTable "http://u" (some "shape.shp"),
     EngineCall.insertVector "shape.shp"] (some "http://u") .spatialContinue rfl

/-- Claim C6, counterexample.  A table whose OWN `archived` attribute is set
(but with no `path`, on a dataset without an `archived` attribute) is
inserted URL-based, not file-based: `process_tabular_insert` consults
`hasattr(self, "archived")` — the dataset — not the table. -/
theorem tabularInsertSource_cex :
    download tableArchivedScript plainEngine = .ok
      [.createDb, .downloadArchive "http://u" none "zip" false none,
       .insertDataFromUrl "http://u", .disconnectFiles]
  ∧ tableArchived.archived.isSome = true
  ∧ ([EngineCall.createDb, EngineCall.downloadArchive "http://u" none "zip" false none,
      EngineCall.insertDataFromUrl "http://u", EngineCall.disconnectFiles].any
        EngineCall.isInsertFromFile) = false :=
  ⟨rfl, rfl, by decide⟩

/-- Claim C6 (amended): tabular insertion is file-based iff the DATASET
declares `archived` or the table has an explicit `path` (the table's own
`archived` attribute plays no role); with a `path` it inserts from the
formatted file, with neither it streams from the URL, and with only the
dataset's `archived` set but no `path` it raises an `AttributeError`. -/
theorem tabularInsertSource (s : Script) (e : Engine) (t : Table) (url : String)
    (p : String) :
    (s.archived = none → t.path = none →
      tabularInsertCalls s e t url = .ok [.insertDataFromUrl url])
  ∧ (t.path = some p →
      tabularInsertCalls s e t url = .ok [.insertDataFromFile (e.format_filename p)])
  ∧ (s.archived.isSome = true → t.path = none →
      tabularInsertCalls s e t url = .error .attributeError) := by
  refine ⟨fun hsa hp => ?_, fun hp => ?_, fun hsa hp => ?_⟩
  · simp [tabularInsertCalls, hsa, hp]
  · simp [tabularInsertCalls, hp]
  · simp [tabularInsertCalls, hsa, hp]

/-- Claim C6, witness: the three insertion-source modes at concrete
descriptors. -/
theorem tabularInsertSource_wit :
    tabularInsertCalls ({ url := some "http://u" } : Script) plainEngine ({} : Table)
      "http://u" = .ok [.insertDataFromUrl "http://u"]
  ∧ tabularInsertCalls ({} : Script) plainEngine ({ path := some "f.csv" } : Table)
      "http://u" = .ok [.insertDataFromFile "f.csv"]
  ∧ tabularInsertCalls ({ archived := some "zip" } : Script) plainEngine ({} : Table)
      "http://u" = .error .attributeError :=
  ⟨(tabularInsertSource { url := some "http://u" } plainEngine {} "http://u" "p").1 rfl rfl,
   (tabularInsertSource {} plainEngine { path := some "f.csv" } "http://u" "f.csv").2.1 rfl,
   (tabularInsertSource { archived := some "zip" } plainEngine {} "http://u" "p").2.2 rfl rfl⟩

/-- Claim C7 (confirmed): for a table whose `dataset_type` is `RasterDataset`
or `VectorDataset`, no tabular insertion call ever occurs in its iteration;
and if the iteration was not capability-aborted, the corresponding spatial
insertion on the table's formatted path occurs and the iteration ends in the
spatial `continue`. -/
theorem spatialInsertExclusive (s : Script) (e : Engine) (t : Table) (prev : Option String)
    (calls : List EngineCall) (urlB : Option String) (out : Outcome) (dt : String)
    (p : String)
    (hd : t.dataset_type = some dt)
    (hdt : dt = "RasterDataset" ∨ dt = "VectorDataset")
    (h : processTable s e t prev = .ok (calls, urlB, out)) :
    calls.any EngineCall.isTabularInsert = false
  ∧ (out ≠ .abortRun → t.path = some p →
      ((dt = "RasterDataset" → EngineCall.insertRaster (e.format_filename p) ∈ calls)
       ∧ (dt = "VectorDataset" → EngineCall.insertVector (e.format_filename p) ∈ calls)
       ∧ out = .spatialContinue)) := by
  obtain ⟨urlB0, a, c, i, hu, ha, hcase⟩ := processTable_inv s e t prev _ h
  have hatb : a.any EngineCall.isTabularInsert = false :=
    anyEqFalse fun x hx => (archiveStage_mem s t urlB0 a ha x hx).2.2.1
  rcases hcase with ⟨hc, _, hr⟩ | ⟨hc, hcase2⟩
  · obtain ⟨hcalls, _, hout⟩ := tripleInj hr
    subst hout
    have hctb : c.any EngineCall.isTabularInsert = false :=
      anyEqFalse fun x hx => (creationStage_mem s e t urlB0 c true hc x hx).2.1
    refine ⟨?_, fun hno _ => absurd rfl hno⟩
    rw [hcalls, List.any_append, hatb, hctb]
    rfl
  · have hctb : c.any EngineCall.isTabularInsert = false :=
      anyEqFalse fun x hx => (creationStage_mem s e t urlB0 c false hc x hx).2.1
    rcases hcase2 with ⟨hi, hr⟩ | ⟨hi, hr⟩
    · obtain ⟨hcalls, _, hout⟩ := tripleInj hr
      subst hout
      rcases insertionStage_cases s e t urlB0 i true hi with
        ⟨hdn, _, _⟩ | ⟨dt2, hdd, _, _, hsp⟩ | ⟨dt2, u2, hdd, hr1, hr2, hcont, _, _⟩
      · rw [hd] at hdn
        exact absurd hdn (by simp)
      · rw [hd] at hdd
        injection hdd with hdd2
        subst hdd2
        have hspec := spatialInsertCalls_spatial e t dt i hd hsp
        have hitb : i.any EngineCall.isTabularInsert = false := by
          refine anyEqFalse fun x hx => ?_
          rcases spatialInsertCalls_shape e t i hsp with rfl | ⟨q, rfl⟩ | ⟨q, rfl⟩
          · simp at hx
          · have hx2 : x = EngineCall.insertRaster q := by simpa using hx
            subst hx2
            rfl
          · have hx2 : x = EngineCall.insertVector q := by simpa using hx
            subst hx2
            rfl
        refine ⟨?_, fun _ hp => ⟨fun hR => ?_, fun hV => ?_, rfl⟩⟩
        · rw [hcalls, List.any_append, List.any_append, hatb, hctb, hitb]
          rfl
        · obtain ⟨q, hq, hieq⟩ := hspec.1 hR
          rw [hp] at hq
          injection hq with hq2
          subst hq2
          rw [hcalls, hieq]
          exact List.mem_append_right _ (by simp)
        · obtain ⟨q, hq, hieq⟩ := hspec.2 hV
          rw [hp] at hq
          injection hq with hq2
          subst hq2
          rw [hcalls, hieq]
          exact List.mem_append_right _ (by simp)
      · exact absurd hcont (by decide)
    · obtain ⟨_, _, hout⟩ := tripleInj hr
      rcases insertionStage_cases s e t urlB0 i false hi with
        ⟨hdn, _, _⟩ | ⟨dt2, hdd, _, hcont, _⟩ | ⟨dt2, u2, hdd, hr1, hr2, _, _, _⟩
      · rw [hd] at hdn
        exact absurd hdn (by simp)
      · exact absurd hcont (by decide)
      · rw [hd] at hdd
        injection hdd with hdd2
        subst hdd2
        rcases hdt with hdt | hdt
        · exact absurd hdt hr1
        · exact absurd hdt hr2

/-- Claim C7, witness: the raster fixture; all hypotheses and the inner
conditions discharged at concrete values. -/
theorem spatialInsertExclusive_wit :
    ([EngineCall.autoCreateTable "http://u" (some "r.tif"),
      EngineCall.insertRaster "r.tif"].any EngineCall.isTabularInsert) = false
  ∧ EngineCall.insertRaster "r.tif" ∈
      [EngineCall.autoCreateTable "http://u" (some "r.tif"),
       EngineCall.insertRaster "r.tif"] := by
  have H := spatialInsertExclusive rasterScript plainEngine rasterTable none
    [EngineCall.autoCreateTable "http://u" (some "r.tif"), EngineCall.insertRaster "r.tif"]
    (some "http://u") .spatialContinue "RasterDataset" "r.tif" rfl (Or.inl rfl) rfl
  exact ⟨H.1, (H.2 (by decide) rfl).1 rfl⟩

/-- Claim C8 (confirmed): in any successful iteration, an archive call occurs
iff the table or the dataset declares `archived`; and any archive call made
carries the archive type with the table's attribute taking precedence, and —
when `xls_sheets` is present — a file list forced to exactly the spreadsheet
source filename. -/
theorem archiveActivationParams (s : Script) (e : Engine) (t : Table) (prev : Option String)
    (calls : List EngineCall) (urlB : Option String) (out : Outcome)
    (url : String) (files : Option (List String)) (ty : String) (k : Bool)
    (n : Option String) (a0 : String) (xs : Nat × String)
    (h : processTable s e t prev = .ok (calls, urlB, out)) :
    calls.any EngineCall.isArchiveCall = (t.archived.isSome || s.archived.isSome)
  ∧ (EngineCall.downloadArchive url files ty k n ∈ calls →
      (ty = archiveType s t
       ∧ (t.archived = some a0 → ty = a0)
       ∧ (t.xls_sheets = some xs → files = some [xs.2]))) := by
  obtain ⟨urlB0, a, c, i, hu, ha, hcase⟩ := processTable_inv s e t prev _ h
  have main : ∃ rest, calls = a ++ rest ∧ ∀ x ∈ rest, x.isArchiveCall = false := by
    rcases hcase with ⟨hc, _, hr⟩ | ⟨hc, hcase2⟩
    · obtain ⟨hcalls, _, _⟩ := tripleInj hr
      exact ⟨c, hcalls, fun x hx => (creationStage_mem s e t urlB0 c true hc x hx).2.2.1⟩
    · rcases hcase2 with ⟨hi, hr⟩ | ⟨hi, hr⟩
      · obtain ⟨hcalls, _, _⟩ := tripleInj hr
        refine ⟨c ++ i, by rw [hcalls, List.append_assoc], fun x hx => ?_⟩
        rcases List.mem_append.mp hx with hx | hx
        · exact (creationStage_mem s e t urlB0 c false hc x hx).2.2.1
        · exact (isInsert_classify x (insertionStage_mem s e t urlB0 i true hi x hx)).1
      · obtain ⟨hcalls, _, _⟩ := tripleInj hr
        refine ⟨c ++ i ++ [.disconnectFiles],
          by rw [hcalls, List.append_assoc, List.append_assoc, List.append_assoc],
          fun x hx => ?_⟩
        rcases List.mem_append.mp hx with hx | hx
        · rcases List.mem_append.mp hx with hx | hx
          · exact (creationStage_mem s e t urlB0 c false hc x hx).2.2.1
          · exact (isInsert_classify x (insertionStage_mem s e t urlB0 i false hi x hx)).1
        · have hx2 : x = EngineCall.disconnectFiles := by simpa using hx
          subst hx2
          rfl
  obtain ⟨rest, hcalls, hrest⟩ := main
  constructor
  · rcases archiveStage_ok_cases s t urlB0 a ha with ⟨hta, hsa, haeq⟩ | ⟨hcond, u0, f0, hu0, hf0, haeq⟩
    · rw [hta, hsa, hcalls, haeq]
      simp only [List.nil_append]
      rw [anyEqFalse hrest]
      rfl
    · have hmem : EngineCall.downloadArchive u0 f0 (archiveType s t)
          (s.keep_in_dir.getD false) s.archive_name ∈ calls := by
        rw [hcalls, haeq]
        exact List.mem_append_left _ (by simp)
      have hany : calls.any EngineCall.isArchiveCall = true :=
        List.any_eq_true.mpr ⟨_, hmem, rfl⟩
      rw [hany]
      rcases hcond with h2 | h2
      · simp [h2]
      · simp [h2]
  · intro hmem
    rw [hcalls] at hmem
    rcases List.mem_append.mp hmem with hin | hin
    · rcases archiveStage_ok_cases s t urlB0 a ha with ⟨_, _, haeq⟩ | ⟨_, u0, f0, hu0, hf0, haeq⟩
      · rw [haeq] at hin
        simp at hin
      · rw [haeq] at hin
        simp only [List.mem_singleton, EngineCall.downloadArchive.injEq] at hin
        obtain ⟨_, hfiles, hty, _, _⟩ := hin
        refine ⟨hty, fun ha0 => ?_, fun hx => ?_⟩
        · rw [hty]
          simp [archiveType, ha0]
        · rw [hfiles]
          exact archiveFiles_xls s t xs f0 hx hf0
    · exact absurd (hrest _ hin) (by simp [EngineCall.isArchiveCall])

/-- Claim C8, witness: a dataset-level `"zip"` default overridden by the
table's own `"tar"`, with the `xls_sheets` file-list override, at the
archived-spreadsheet fixture. -/
theorem archiveActivationParams_wit :
    ([EngineCall.downloadArchive "http://u" (some ["wb.xlsx"]) "tar" false none,
      EngineCall.downloadFile "http://u" "wb.xlsx",
      EngineCall.excelToCsv "wb.xlsx" "out.csv" (1, "wb.xlsx") "utf-8",
      EngineCall.autoCreateTable "http://u" (some "out.csv"),
      EngineCall.disconnectFiles].any EngineCall.isArchiveCall) = true
  ∧ "tar" = archiveType xlsArchScript xlsArchTable
  ∧ (some ["wb.xlsx"] : Option (List String)) = some ["wb.xlsx"] := by
  have H := archiveActivationParams xlsArchScript plainEngine xlsArchTable none
    [EngineCall.downloadArchive "http://u" (some ["wb.xlsx"]) "tar" false none,
     EngineCall.downloadFile "http://u" "wb.xlsx",
     EngineCall.excelToCsv "wb.xlsx" "out.csv" (1, "wb.xlsx") "utf-8",
     EngineCall.autoCreateTable "http://u" (some "out.csv"),
     EngineCall.disconnectFiles] (some "http://u") .normal
    "http://u" (some ["wb.xlsx"]) "tar" false none "tar" (1, "wb.xlsx") rfl
  exact ⟨H.1.trans rfl, (H.2 (by decide)).1, (H.2 (by decide)).2.2 rfl⟩

/-- Claim C9 (confirmed): the run is deterministic — any two engine-call
traces related by the loop relation to the same dataset, engine and initial
state are identical (same operation sequence with the same arguments). -/
theorem stageComputationDeterministic (s : Script) (e : Engine)
    (r₁ r₂ : Except PyError (List EngineCall))
    (h₁ : DownloadRel s e s.tables none r₁) (h₂ : DownloadRel s e s.tables none r₂) :
    r₁ = r₂ :=
  downloadRel_det s e s.tables none r₁ r₂ h₁ h₂

/-- Claim C9, witness: two derivations of the run of `noDatasetTypeScript`
yield the same trace. -/
theorem stageComputationDeterministic_wit :
    (Except.ok [EngineCall.autoCreateTable "http://u" none, EngineCall.disconnectFiles] :
      Except PyError (List EngineCall)) =
    .ok [EngineCall.autoCreateTable "http://u" none, EngineCall.disconnectFiles] :=
  stageComputationDeterministic noDatasetTypeScript plainEngine
    (.ok [EngineCall.autoCreateTable "http://u" none, EngineCall.disconnectFiles])
    (.ok [EngineCall.autoCreateTable "http://u" none, EngineCall.disconnectFiles])
    (downloadLoop_rel noDatasetTypeScript plainEngine noDatasetTypeScript.tables none)
    (downloadLoop_rel noDatasetTypeScript plainEngine noDatasetTypeScript.tables none)

/-- Claim C10 (confirmed): when the table's format is absent or not
"tabular" and the engine has NO `spatial_support` attribute at all, the
iteration is not aborted, makes no create-table call and emits no
capability-mismatch diagnostic — table creation is silently skipped and
processing continues to the insertion stage. -/
theorem missingSpatialSkipsCreation (s : Script) (e : Engine) (t : Table)
    (prev : Option String) (calls : List EngineCall) (urlB : Option String) (out : Outcome)
    (hf : t.format ≠ some "tabular") (hs : e.spatial_support = none)
    (h : processTable s e t prev = .ok (calls, urlB, out)) :
    out ≠ .abortRun
  ∧ calls.any EngineCall.isCreateTable = false
  ∧ calls.any EngineCall.isDiag = false := by
  obtain ⟨urlB0, a, c, i, hu, ha, hcase⟩ := processTable_inv s e t prev _ h
  have hskip := creationStage_skip s e t urlB0 hf hs
  have haC : ∀ x ∈ a, x.isCreateTable = false :=
    fun x hx => (archiveStage_mem s t urlB0 a ha x hx).2.2.2.2.1
  have haD : ∀ x ∈ a, x.isDiag = false :=
    fun x hx => (archiveStage_mem s t urlB0 a ha x hx).2.2.2.2.2
  rcases hcase with ⟨hc, _, _⟩ | ⟨hc, hcase2⟩
  · rw [hskip] at hc
    injection hc with hc2
    have h3 : (false : Bool) = true := congrArg Prod.snd hc2
    exact absurd h3 (by decide)
  · rw [hskip] at hc
    injection hc with hc2
    have hceq : ([] : List EngineCall) = c := congrArg Prod.fst hc2
    rcases hcase2 with ⟨hi, hr⟩ | ⟨hi, hr⟩
    · obtain ⟨hcalls, _, hout⟩ := tripleInj hr
      subst hout
      have hiC : ∀ x ∈ i, x.isCreateTable = false := fun x hx =>
        (isInsert_classify x (insertionStage_mem s e t urlB0 i true hi x hx)).2.1
      have hiD : ∀ x ∈ i, x.isDiag = false := fun x hx =>
        (isInsert_classify x (insertionStage_mem s e t urlB0 i true hi x hx)).2.2.1
      refine ⟨by decide, ?_, ?_⟩
      · rw [hcalls, ← hceq]
        simp only [List.append_nil]
        rw [List.any_append, anyEqFalse haC, anyEqFalse hiC]
        rfl
      · rw [hcalls, ← hceq]
        simp only [List.append_nil]
        rw [List.any_append, anyEqFalse haD, anyEqFalse hiD]
        rfl
    · obtain ⟨hcalls, _, hout⟩ := tripleInj hr
      subst hout
      have hiC : ∀ x ∈ i, x.isCreateTable = false := fun x hx =>
        (isInsert_classify x (insertionStage_mem s e t urlB0 i false hi x hx)).2.1
      have hiD : ∀ x ∈ i, x.isDiag = false := fun x hx =>
        (isInsert_classify x (insertionStage_mem s e t urlB0 i false hi x hx)).2.2.1
      refine ⟨by decide, ?_, ?_⟩
      · rw [hcalls, ← hceq]
        simp only [List.append_nil]
        rw [List.any_append, List.any_append, anyEqFalse haC, anyEqFalse hiC]
        rfl
      · rw [hcalls, ← hceq]
        simp only [List.append_nil]
        rw [List.any_append, List.any_append, anyEqFalse haD, anyEqFalse hiD]
        rfl

/-- Claim C10, witness: the fixture with a non-spatial `dataset_type` on an
engine with no `spatial_support` attribute: the iteration completes normally
with the insertion and cleanup only. -/
theorem missingSpatialSkipsCreation_wit :
    Outcome.normal ≠ Outcome.abortRun
  ∧ ([EngineCall.insertDataFromUrl "http://u", EngineCall.disconnectFiles].any
      EngineCall.isCreateTable) = false
  ∧ ([EngineCall.insertDataFromUrl "http://u", EngineCall.disconnectFiles].any
      EngineCall.isDiag) = false :=
  missingSpatialSkipsCreation plainTypedScript plainEngine plainTypedTable none
    [EngineCall.insertDataFromUrl "http://u", EngineCall.disconnectFiles]
    (some "http://u") .normal (by decide) rfl rfl

end Retriever
